import Mathlib

/-!
Verification development for the Cranelift function-translation core
(`crates/cranelift/src/func_environ.rs`).  The definitions below are shallow
embeddings of the IR-emitting functions of that file: pure functions become
Lean functions, emitted IR sequences become lists of abstract instructions or
events, and the runtime behaviour of emitted straight-line code is modelled by
evaluation functions that follow the emitted control-flow block by block.
Machine integers are modelled as `Nat`/`Int` with explicit `% 2^w` where
overflow matters.
-/

namespace FuncEnviron

/-! ## Conversion of pointer-width page counts to the memory index type

`cast_pointer_to_memory_index` (func_environ.rs lines 809-840) converts a
value of the native pointer type into the memory's Wasm index type
(`I64` for memory64, `I32` for classic memories): identity when the widths
agree, `ireduce` when the pointer is wider, `sextend` when it is narrower. -/

/-- The IR conversion operator chosen by `cast_pointer_to_memory_index`. -/
inductive CastOp where
  | idCast : CastOp
  | ireduce : Nat → CastOp
  | sextend : Nat → CastOp
  | uextend : Nat → CastOp
deriving DecidableEq, Repr

/-- Width in bits of the memory's Wasm index type (`memory_index_type`):
`I64` for memory64 memories, `I32` for classic memories. -/
def memoryIndexBits (memory64 : Bool) : Nat :=
  if memory64 then 64 else 32

/-- The conversion emitted by `cast_pointer_to_memory_index` for a host with
`ptrBits`-wide pointers and a memory that is (or is not) memory64. -/
def cast_pointer_to_memory_index (ptrBits : Nat) (memory64 : Bool) : CastOp :=
  let desired := memoryIndexBits memory64
  if ptrBits = desired then CastOp.idCast
  else if desired < ptrBits then CastOp.ireduce desired
  else CastOp.sextend desired

/-- Sign-extension of a `w1`-bit value to `w2` bits (`w1 ≤ w2`), on the
unsigned `Nat` representation of bit patterns. -/
def sextendVal (w1 w2 v : Nat) : Nat :=
  if v < 2 ^ (w1 - 1) then v else v + (2 ^ w2 - 2 ^ w1)

/-- Evaluation of the conversion chosen by `cast_pointer_to_memory_index` on a
`ptrBits`-wide bit pattern `v`. -/
def applyCast (ptrBits : Nat) (memory64 : Bool) (v : Nat) : Nat :=
  match cast_pointer_to_memory_index ptrBits memory64 with
  | CastOp.idCast => v
  | CastOp.ireduce b => v % 2 ^ b
  | CastOp.sextend b => sextendVal ptrBits b v
  | CastOp.uextend _ => v

/-! ## Funcref tables: init bit, lazy initialisation, and call lowering

`FUNCREF_INIT_BIT` is bit 0 and `FUNCREF_MASK` is `-2` (asserted in
`get_or_init_func_ref_table_elem`, lines 855-908).  Table slots hold 64-bit
pointers (modelled as `Nat < 2^64`, with `0` the null pointer). -/

/-- Bit 0, set on every funcref table slot that has been initialised. -/
def FUNCREF_INIT_BIT : Nat := 1

/-- The 64-bit pattern of the `-2` immediate used by `band_imm` to mask the
init bit off a loaded funcref table slot. -/
def FUNCREF_MASK64 : Nat := 2 ^ 64 - 2

/-- The value stored into a funcref table slot by `translate_table_set`
(lines 1498-1511): the new value with the init bit set unconditionally by
`bor_imm`, truncated to the 64-bit slot. -/
def table_set_funcref_stored (value : Nat) : Nat :=
  (value ||| FUNCREF_INIT_BIT) % 2 ^ 64

/-- Runtime behaviour of the code emitted by
`get_or_init_func_ref_table_elem` for a slot whose raw loaded value is `raw`:
the raw value is masked with `FUNCREF_MASK`, the branch on the *raw* value
selects the continuation with the masked value when `raw ≠ 0`, and otherwise
the cold block calls the `table_get_lazy_init_func_ref` builtin, whose result
`lazyInitResult` is passed to the continuation. -/
def get_or_init_func_ref_table_elem (raw lazyInitResult : Nat) : Nat :=
  if raw ≠ 0 then raw &&& FUNCREF_MASK64 else lazyInitResult

/-- Trap codes attached to the emitted trap instructions. -/
inductive TrapCode where
  | indirectCallToNull : TrapCode
  | badSignature : TrapCode
  | nullReference : TrapCode
deriving DecidableEq, Repr

/-- Outcome of executing the code emitted for a call site: either one of the
guarding traps fires before the call, or the call instruction itself executes
with a function address and a full argument list. -/
inductive CallOutcome where
  | trap : TrapCode → CallOutcome
  | callIndirectWasm : Bool → Nat → List Nat → CallOutcome
deriving DecidableEq, Repr

/-- Fields of a `VMFuncRef` header loaded by the emitted code: the
`wasm_call` entry point, the callee's `vmctx`, and the stored `type_index`. -/
structure VMFuncRef where
  wasm_call : Nat
  vmctx : Nat
  type_index : Nat
deriving DecidableEq, Repr

/-- Runtime behaviour of `Call::unchecked_call` (lines 1144-1182): load the
function address from the funcref header's `wasm_call` field, load the callee
vmctx from its `vmctx` field, and call with the callee vmctx first, the
caller's vmctx second, and the Wasm operand-stack arguments after them. -/
def unchecked_call (tail : Bool) (hdr : Nat → VMFuncRef) (callee : Nat)
    (caller_vmctx : Nat) (call_args : List Nat) : CallOutcome :=
  CallOutcome.callIndirectWasm tail (hdr callee).wasm_call
    ((hdr callee).vmctx :: caller_vmctx :: call_args)

/-- Runtime behaviour of the code emitted by `Call::indirect_call`
(lines 1048-1115): resolve the table slot through
`get_or_init_func_ref_table_elem`, trap `IndirectCallToNull` on a null
funcref, load the caller's expected shared-type index from the runtime
type-id array at the module type's signature index, load the callee's stored
type index from the funcref header, trap `BadSignature` when they differ, and
otherwise perform the unchecked call.  `type_ids` is the runtime type-id
array and `hdr` maps a funcref pointer to its header fields. -/
def indirect_call (tail : Bool) (raw lazyInitResult : Nat)
    (type_ids : Nat → Nat) (hdr : Nat → VMFuncRef) (sig_index : Nat)
    (caller_vmctx : Nat) (call_args : List Nat) : CallOutcome :=
  let funcref_ptr := get_or_init_func_ref_table_elem raw lazyInitResult
  if funcref_ptr = 0 then CallOutcome.trap TrapCode.indirectCallToNull
  else
    let caller_sig_id := type_ids sig_index
    let callee_sig_id := (hdr funcref_ptr).type_index
    if callee_sig_id = caller_sig_id then
      unchecked_call tail hdr funcref_ptr caller_vmctx call_args
    else CallOutcome.trap TrapCode.badSignature

/-- Runtime behaviour of the code emitted by `Call::call_ref`
(lines 1118-1137): trap `NullReference` on a null reference, then perform the
unchecked call (no signature check). -/
def call_ref (tail : Bool) (hdr : Nat → VMFuncRef) (callee : Nat)
    (caller_vmctx : Nat) (call_args : List Nat) : CallOutcome :=
  if callee = 0 then CallOutcome.trap TrapCode.nullReference
  else unchecked_call tail hdr callee caller_vmctx call_args

/-- `is_wasm_parameter` (lines 1241-1245): the first two parameters are the
callee and caller vmctx pointers; the Wasm parameters are the rest. -/
def is_wasm_parameter (index : Nat) : Bool :=
  index ≥ 2

/-- Kind of call instruction emitted for a direct call site: a colocated
direct call for a locally defined callee, or an indirect call through the
vmctx table of imports for an imported callee; the `Bool` is the tail
flag. -/
inductive CallKind where
  | direct : Bool → CallKind
  | indirectThroughImport : Bool → CallKind
deriving DecidableEq, Repr

/-- A call instruction together with its full argument list. -/
structure EmittedCall where
  kind : CallKind
  args : List Nat
deriving DecidableEq, Repr

/-- The two fields of a `VMFunctionImport` loaded from the vmctx for a direct
call to an imported function: the callee's `wasm_call` address and vmctx. -/
structure ImportedFuncFields where
  wasm_call : Nat
  vmctx : Nat
deriving DecidableEq, Repr

/-- Runtime behaviour of `Call::direct_call` (lines 980-1045).  For a locally
defined callee the caller's vmctx is passed as both of the two leading
arguments and a colocated direct call is emitted; for an imported callee the
callee vmctx is loaded from the import's descriptor in vmctx and an indirect
call is emitted, again with the Wasm arguments after the two vmctx
arguments. -/
def direct_call (tail : Bool) (imported : Bool) (impf : ImportedFuncFields)
    (caller_vmctx : Nat) (call_args : List Nat) : EmittedCall :=
  if imported then
    { kind := CallKind.indirectThroughImport tail,
      args := impf.vmctx :: caller_vmctx :: call_args }
  else
    { kind := CallKind.direct tail,
      args := caller_vmctx :: caller_vmctx :: call_args }

/-! ## Externref table.set write barrier

`translate_table_set` for externref tables (lines 1514-1644).  Refcounts are
mutated by `mutate_externref_ref_count` (lines 340-361), a single
`atomic_rmw add` whose IR result is the value held *before* the
read-modify-write. -/

/-- State visible to the externref write barrier: the table slot being
written (a pointer, `0` for null) and the refcount word at offset 0 of every
`ExternData` header. -/
structure ExtState where
  slot : Nat
  refcount : Nat → Int

/-- Events performed by the emitted write-barrier code, in execution order.
The `Int` on `decRef` is the previous count returned by the atomic
decrement. -/
inductive ExtEvent where
  | incRef : Nat → ExtEvent
  | loadOld : Nat → ExtEvent
  | storeNew : Nat → ExtEvent
  | decRef : Nat → Int → ExtEvent
  | dropExternref : Nat → ExtEvent
deriving DecidableEq, Repr

/-- Update of a refcount map by `delta` at `r`. -/
def bumpRefCount (rc : Nat → Int) (r : Nat) (delta : Int) : Nat → Int :=
  fun x => if x = r then rc x + delta else rc x

/-- `mutate_externref_ref_count`: the `atomic_rmw add` updates the refcount
word and yields the previous count. -/
def mutate_externref_ref_count (rc : Nat → Int) (externref : Nat)
    (delta : Int) : (Nat → Int) × Int :=
  (bumpRefCount rc externref delta, rc externref)

/-- Runtime behaviour of the externref `table.set` write barrier emitted by
`translate_table_set`, following the emitted blocks in control-flow order:
if the new `value` is non-null its refcount is incremented
(`inc_ref_count_block`); then the old slot value is loaded and `value` is
stored (`check_current_elem_block`); then, if the old value is non-null, its
refcount is atomically decremented (`dec_ref_count_block`) and, when the
previous count returned by the atomic was 1, the `drop_externref` builtin is
called on it (`drop_block`).  Returns the final state and the event trace. -/
def translate_table_set_externref (value : Nat) (st : ExtState) :
    ExtState × List ExtEvent :=
  let incStep :=
    if value = 0 then (st.refcount, ([] : List ExtEvent))
    else ((mutate_externref_ref_count st.refcount value 1).1,
          [ExtEvent.incRef value])
  let rc1 := incStep.1
  let current_elem := st.slot
  let storeEvents := [ExtEvent.loadOld current_elem, ExtEvent.storeNew value]
  let decStep :=
    if current_elem = 0 then (rc1, ([] : List ExtEvent))
    else
      let rmw := mutate_externref_ref_count rc1 current_elem (-1)
      (rmw.1,
        ExtEvent.decRef current_elem rmw.2 ::
          (if rmw.2 = 1 then [ExtEvent.dropExternref current_elem] else []))
  ({ slot := value, refcount := decStep.1 },
    incStep.2 ++ storeEvents ++ decStep.2)

/-- The refcount of the old slot value at the moment the barrier's atomic
decrement reads it: the original count, plus one if the new value is non-null
and is the same reference as the old one (its increment happened first). -/
def prevCountAtDec (value : Nat) (st : ExtState) : Int :=
  if value ≠ 0 ∧ st.slot = value then st.refcount st.slot + 1
  else st.refcount st.slot

/-! ## Fuel metering

`fuel_before_op`/`fuel_after_op` (lines 418-528), `fuel_increment_var`,
`fuel_save_from_var`, `fuel_load_into_var` (lines 530-560) and `fuel_check`
(lines 574-619).  `Op` is the subset of `wasmparser::Operator` shapes that the
`match`es in these functions distinguish; `otherOp` stands for every operator
not named by any arm. -/

/-- Operator shapes distinguished by the fuel bookkeeping code. -/
inductive Op where
  | nop | dropValue | blockOp | loopOp | unreachable | retOp | elseOp | endOp
  | ifOp | br | brIf | brTable
  | call | callIndirect | returnCall | returnCallIndirect
  | callRefOp | returnCallRefOp
  | otherOp
deriving DecidableEq, Repr

/-- IR actions on the fuel variable and the `VMRuntimeLimits` fuel field. -/
inductive FuelIR where
  | iaddFuelVar : Int → FuelIR
  | storeFuel : FuelIR
  | loadFuel : FuelIR
  | callOutOfGas : FuelIR
  | jumpContinuation : FuelIR
deriving DecidableEq, Repr

/-- Static fuel cost accumulated for one operator by `fuel_before_op`:
`Nop`/`Drop` and the listed control-flow markers cost 0, everything else 1. -/
def fuel_cost (op : Op) : Int :=
  match op with
  | Op.nop | Op.dropValue => 0
  | Op.blockOp | Op.loopOp | Op.unreachable | Op.retOp | Op.elseOp
  | Op.endOp => 0
  | _ => 1

/-- `fuel_increment_var`: fold the static accumulator into the fuel variable,
emitting an `iadd_imm` only when the accumulated consumption is non-zero;
the accumulator is reset to 0. -/
def fuel_increment_var (fuel_consumed : Int) : Int × List FuelIR :=
  if fuel_consumed = 0 then (0, [])
  else (0, [FuelIR.iaddFuelVar fuel_consumed])

/-- `fuel_before_op`: in unreachable code nothing is accumulated and no IR is
emitted; otherwise the operator's cost is accumulated and then, depending on
the operator, the accumulator is folded and spilled (return, unreachable,
call, call_indirect, return_call, return_call_indirect), only folded (loop,
if, br, br_if, br_table, end, else), or left buffered.  Returns the new
accumulator value and the emitted IR. -/
def fuel_before_op (op : Op) (reachable : Bool) (fuel_consumed : Int) :
    Int × List FuelIR :=
  if !reachable then (fuel_consumed, [])
  else
    let fc := fuel_consumed + fuel_cost op
    match op with
    | Op.unreachable | Op.retOp | Op.callIndirect | Op.call
    | Op.returnCall | Op.returnCallIndirect =>
        let folded := fuel_increment_var fc
        (folded.1, folded.2 ++ [FuelIR.storeFuel])
    | Op.loopOp | Op.ifOp | Op.br | Op.brIf | Op.brTable | Op.endOp
    | Op.elseOp => fuel_increment_var fc
    | _ => (fc, [])

/-- `fuel_after_op`: reload the fuel variable from `VMRuntimeLimits` after a
`call` or `call_indirect`; nothing otherwise. -/
def fuel_after_op (op : Op) : List FuelIR :=
  match op with
  | Op.call | Op.callIndirect => [FuelIR.loadFuel]
  | _ => []

/-- `after_translate_operator` (lines 2561-2571): the post-operator fuel hook
runs only when fuel is enabled and the state is reachable. -/
def after_translate_operator (consume_fuel reachable : Bool) (op : Op) :
    List FuelIR :=
  if consume_fuel && reachable then fuel_after_op op else []

/-- Iteration of `fuel_before_op` over a region of operators translated with
`reachable = false`, threading the accumulator and collecting emitted IR. -/
def fuel_before_ops_unreachable (ops : List Op) (fuel_consumed : Int) :
    Int × List FuelIR :=
  match ops with
  | [] => (fuel_consumed, [])
  | op :: rest =>
      let step := fuel_before_op op false fuel_consumed
      let restRun := fuel_before_ops_unreachable rest step.1
      (restRun.1, step.2 ++ restRun.2)

/-- Signed reading of a 64-bit pattern. -/
def toSigned64 (v : Nat) : Int :=
  if v < 2 ^ 63 then (v : Int) else (v : Int) - 2 ^ 64

/-- Wrap an integer into its 64-bit unsigned pattern (the semantics of
`iadd_imm` on `I64`). -/
def wrap64 (x : Int) : Nat :=
  (x % (2 ^ 64 : Int)).toNat

/-- Runtime behaviour of the code emitted by `fuel_check`: the accumulator is
first folded into the fuel variable (`fuel_increment_var`), then the live
fuel value is compared signed-greater-than-or-equal against zero and the
branch selects the out-of-gas block, which spills the fuel variable, calls
the `out_of_gas` builtin, reloads the fuel variable and jumps back to the
continuation block.  Returns the folded fuel pattern and the IR executed on
the taken path. -/
def fuel_check_run (fuelVar : Nat) (fuel_consumed : Int) :
    Nat × List FuelIR :=
  let folded := wrap64 ((fuelVar : Int) + fuel_consumed)
  if 0 ≤ toSigned64 folded then
    (folded, [FuelIR.storeFuel, FuelIR.callOutOfGas, FuelIR.loadFuel,
              FuelIR.jumpContinuation])
  else (folded, [])

/-! ## Epoch interruption

`epoch_check` (lines 734-799) and `translate_loop_header`
(lines 2533-2547). -/

/-- Emission-time and runtime events of one epoch check.  The two `setCold`
events record that `new_epoch_block` and `new_epoch_doublecheck_block` are
marked cold when the check is emitted; `callNewEpoch` carries the deadline
returned by the builtin. -/
inductive EpochIR where
  | setColdNewEpochBlock : EpochIR
  | setColdDoublecheckBlock : EpochIR
  | loadEpochCounter : EpochIR
  | reloadDeadline : EpochIR
  | callNewEpoch : Nat → EpochIR
  | jumpContinuation : EpochIR
deriving DecidableEq, Repr

/-- Runtime behaviour of the code emitted by `epoch_check`: compare the
current epoch (unsigned) against the cached deadline; on a miss, enter the
cold `new_epoch_block`, which reloads the authoritative deadline from
`VMRuntimeLimits` and re-compares; only if the current epoch still equals or
exceeds the reloaded deadline is the cold doublecheck block entered, which
calls the `new_epoch` builtin and caches its returned value as the new
deadline.  Returns the final cached-deadline variable and the event trace. -/
def epoch_check (cur cachedDeadline freshDeadline newEpochRet : Nat) :
    Nat × List EpochIR :=
  let emitted := [EpochIR.setColdNewEpochBlock, EpochIR.setColdDoublecheckBlock,
                  EpochIR.loadEpochCounter]
  if cachedDeadline ≤ cur then
    if freshDeadline ≤ cur then
      (newEpochRet,
        emitted ++ [EpochIR.reloadDeadline, EpochIR.callNewEpoch newEpochRet,
                    EpochIR.jumpContinuation])
    else (freshDeadline, emitted ++ [EpochIR.reloadDeadline])
  else (cachedDeadline, emitted)

/-- The two interruption checks a loop header can emit. -/
inductive CheckKind where
  | fuelCheck : CheckKind
  | epochCheck : CheckKind
deriving DecidableEq, Repr

/-- `translate_loop_header`: emit a fuel check when fuel metering is enabled
and an epoch check when epoch interruption is enabled. -/
def translate_loop_header (consume_fuel epoch_interruption : Bool) :
    List CheckKind :=
  (if consume_fuel then [CheckKind.fuelCheck] else []) ++
  (if epoch_interruption then [CheckKind.epochCheck] else [])

/-! ## translate_memory_size

Lines 2215-2289: the byte length of the memory is loaded (atomically for
shared memories, through the `VMMemoryDefinition` indirection for shared
and imported memories), divided by the Wasm page size, and cast to the
memory's index type. -/

/-- The load emitted for the `current_length` field, with its IR type
width. -/
inductive SizeLoad where
  | atomicLoad : Nat → SizeLoad
  | plainLoad : Nat → SizeLoad
deriving DecidableEq, Repr

/-- Wasm page size in bytes. -/
def PAGE_SIZE_WASM : Nat := 65536

/-- Shape of the IR emitted by `translate_memory_size`. -/
structure MemorySizeEmission where
  throughVMMemoryPtr : Bool
  lengthLoad : SizeLoad
  pageDivisor : Nat
  cast : CastOp
deriving DecidableEq, Repr

/-- The IR emitted by `translate_memory_size` for a memory that is defined
or imported, shared or not, on a host with `ptrBits`-wide pointers: a defined
non-shared memory's length is a plain load directly out of vmctx; every other
case first loads the `*mut VMMemoryDefinition` stored in vmctx and then loads
`current_length` from it, atomically (at pointer width) exactly when the
memory is shared.  The byte count is divided by the page size with
`udiv_imm` and cast with `cast_pointer_to_memory_index`. -/
def translate_memory_size (ptrBits : Nat) (defined shared memory64 : Bool) :
    MemorySizeEmission :=
  if defined then
    if shared then
      { throughVMMemoryPtr := true,
        lengthLoad := SizeLoad.atomicLoad ptrBits,
        pageDivisor := PAGE_SIZE_WASM,
        cast := cast_pointer_to_memory_index ptrBits memory64 }
    else
      { throughVMMemoryPtr := false,
        lengthLoad := SizeLoad.plainLoad ptrBits,
        pageDivisor := PAGE_SIZE_WASM,
        cast := cast_pointer_to_memory_index ptrBits memory64 }
  else
    if shared then
      { throughVMMemoryPtr := true,
        lengthLoad := SizeLoad.atomicLoad ptrBits,
        pageDivisor := PAGE_SIZE_WASM,
        cast := cast_pointer_to_memory_index ptrBits memory64 }
    else
      { throughVMMemoryPtr := true,
        lengthLoad := SizeLoad.plainLoad ptrBits,
        pageDivisor := PAGE_SIZE_WASM,
        cast := cast_pointer_to_memory_index ptrBits memory64 }

end FuncEnviron

namespace FuncEnviron

/-! ## Theorems -/

/-- C1 counterexample: on a 32-bit host a memory64 page count is converted
with `sextend`, not the zero-extension the claim states (the all-ones failure
pattern maps to 64-bit all-ones, which zero-extension would not produce), and
on a 64-bit host a classic memory's page count is truncated with `ireduce`,
not sign-extended. -/
theorem cast_pointer_to_memory_index_cex :
    cast_pointer_to_memory_index 32 true = CastOp.sextend 64 ∧
    cast_pointer_to_memory_index 32 true ≠ CastOp.uextend 64 ∧
    applyCast 32 true (2 ^ 32 - 1) = 2 ^ 64 - 1 ∧
    2 ^ 64 - 1 ≠ 2 ^ 32 - 1 ∧
    cast_pointer_to_memory_index 64 false = CastOp.ireduce 32 ∧
    cast_pointer_to_memory_index 64 false ≠ CastOp.sextend 32 := by
  refine ⟨rfl, by decide, by decide, by decide, rfl, by decide⟩

/-- C1 (amended): `cast_pointer_to_memory_index` is the identity when pointer
width equals the index width, truncates with `ireduce` when the pointer is
wider (64-bit host, classic memory), and sign-extends when the pointer is
narrower (32-bit host, memory64); in every case the all-ones `-1` failure
pattern of `memory.grow` is carried to the all-ones pattern of the index
type. -/
theorem cast_pointer_to_memory_index_corrected (ptrBits : Nat) (memory64 : Bool)
    (h : ptrBits = 32 ∨ ptrBits = 64) :
    (memory64 = true → ptrBits = 32 →
      cast_pointer_to_memory_index ptrBits memory64 = CastOp.sextend 64) ∧
    (memory64 = false → ptrBits = 64 →
      cast_pointer_to_memory_index ptrBits memory64 = CastOp.ireduce 32) ∧
    (ptrBits = memoryIndexBits memory64 →
      cast_pointer_to_memory_index ptrBits memory64 = CastOp.idCast) ∧
    applyCast ptrBits memory64 (2 ^ ptrBits - 1) =
      2 ^ memoryIndexBits memory64 - 1 := by
  rcases h with h | h <;> cases memory64 <;> subst h <;>
    refine ⟨by decide, by decide, by decide, by decide⟩

/-- C1 witness: the amended theorem applied on a 32-bit host with a memory64
memory. -/
theorem cast_pointer_to_memory_index_corrected_witness :
    (true = true → 32 = 32 →
      cast_pointer_to_memory_index 32 true = CastOp.sextend 64) ∧
    (true = false → 32 = 64 →
      cast_pointer_to_memory_index 32 true = CastOp.ireduce 32) ∧
    (32 = memoryIndexBits true →
      cast_pointer_to_memory_index 32 true = CastOp.idCast) ∧
    applyCast 32 true (2 ^ 32 - 1) = 2 ^ memoryIndexBits true - 1 :=
  cast_pointer_to_memory_index_corrected 32 true (Or.inl rfl)

/-- C2: the lowered indirect call reads the caller's expected type id from
the runtime type-id array and the callee's stored type id from the funcref
header and traps `BadSignature` whenever they differ, the call instruction
never executing in that case; a null funcref table entry traps
`IndirectCallToNull`; and a lowered `call_ref` traps `NullReference` exactly
on a null reference. -/
theorem indirect_call_signature_check (tail : Bool) (raw lazyInit : Nat)
    (type_ids : Nat → Nat) (hdr : Nat → VMFuncRef) (sig_index : Nat)
    (caller_vmctx : Nat) (call_args : List Nat) :
    (get_or_init_func_ref_table_elem raw lazyInit = 0 →
      indirect_call tail raw lazyInit type_ids hdr sig_index caller_vmctx
          call_args =
        CallOutcome.trap TrapCode.indirectCallToNull) ∧
    (get_or_init_func_ref_table_elem raw lazyInit ≠ 0 →
      (hdr (get_or_init_func_ref_table_elem raw lazyInit)).type_index ≠
          type_ids sig_index →
      indirect_call tail raw lazyInit type_ids hdr sig_index caller_vmctx
          call_args =
        CallOutcome.trap TrapCode.badSignature) ∧
    (∀ t f a,
      indirect_call tail raw lazyInit type_ids hdr sig_index caller_vmctx
          call_args = CallOutcome.callIndirectWasm t f a →
      (hdr (get_or_init_func_ref_table_elem raw lazyInit)).type_index =
        type_ids sig_index) ∧
    (∀ callee,
      call_ref tail hdr callee caller_vmctx call_args =
          CallOutcome.trap TrapCode.nullReference ↔ callee = 0) := by
  refine ⟨fun h => by simp [indirect_call, h], fun h hne => ?_, ?_, ?_⟩
  · simp only [indirect_call]
    rw [if_neg h, if_neg (by exact fun hc => hne hc)]
  · intro t f a heq
    by_cases h0 : get_or_init_func_ref_table_elem raw lazyInit = 0
    · simp [indirect_call, h0] at heq
    · by_cases hsig :
        (hdr (get_or_init_func_ref_table_elem raw lazyInit)).type_index =
          type_ids sig_index
      · exact hsig
      · simp only [indirect_call] at heq
        rw [if_neg h0, if_neg hsig] at heq
        cases heq
  · intro callee
    constructor
    · intro h
      by_contra hne
      simp [call_ref, hne, unchecked_call] at h
    · intro h
      simp [call_ref, h]

/-- C2 witness: with the table slot holding raw value 4 (masked funcref
pointer 4, non-null), a stored callee type id 9 and an expected caller type
id 3, the emitted code traps `BadSignature`. -/
theorem indirect_call_signature_check_witness :
    indirect_call false 4 0 (fun _ => 3) (fun _ => ⟨5, 6, 9⟩) 0 7 [] =
      CallOutcome.trap TrapCode.badSignature :=
  (indirect_call_signature_check false 4 0 (fun _ => 3) (fun _ => ⟨5, 6, 9⟩)
      0 7 []).2.1 (by decide) (by decide)

/-- C5: every emitted call site passes the callee's vmctx first and the
caller's vmctx second, with the Wasm operand-stack arguments starting at
parameter index 2; for a direct call to a locally defined function both
leading arguments are the caller's vmctx; and `is_wasm_parameter` holds
exactly for indices at least 2. -/
theorem call_site_vmctx_abi (tail imported : Bool) (impf : ImportedFuncFields)
    (caller_vmctx : Nat) (call_args : List Nat) (hdr : Nat → VMFuncRef)
    (callee : Nat) :
    ((direct_call tail imported impf caller_vmctx call_args).args =
      (if imported then impf.vmctx else caller_vmctx) :: caller_vmctx ::
        call_args) ∧
    (imported = false →
      (direct_call tail imported impf caller_vmctx call_args).args =
        caller_vmctx :: caller_vmctx :: call_args) ∧
    ((direct_call tail imported impf caller_vmctx call_args).args.drop 2 =
      call_args) ∧
    (unchecked_call tail hdr callee caller_vmctx call_args =
      CallOutcome.callIndirectWasm tail (hdr callee).wasm_call
        ((hdr callee).vmctx :: caller_vmctx :: call_args)) ∧
    (∀ n : Nat, is_wasm_parameter n = true ↔ 2 ≤ n) := by
  cases imported <;>
    simp [direct_call, unchecked_call, is_wasm_parameter, ge_iff_le]

/-- C5 witness: the ABI theorem applied to a non-tail call of a locally
defined function with caller vmctx 10 and Wasm arguments `[1, 2, 3]`. -/
theorem call_site_vmctx_abi_witness :
    ((direct_call false false ⟨0, 0⟩ 10 [1, 2, 3]).args =
      (if false then (⟨0, 0⟩ : ImportedFuncFields).vmctx else 10) :: 10 ::
        [1, 2, 3]) ∧
    (false = false →
      (direct_call false false ⟨0, 0⟩ 10 [1, 2, 3]).args =
        10 :: 10 :: [1, 2, 3]) ∧
    ((direct_call false false ⟨0, 0⟩ 10 [1, 2, 3]).args.drop 2 = [1, 2, 3]) ∧
    (unchecked_call false (fun _ => ⟨5, 6, 9⟩) 4 10 [1, 2, 3] =
      CallOutcome.callIndirectWasm false
        ((fun _ => (⟨5, 6, 9⟩ : VMFuncRef)) 4).wasm_call
        (((fun _ => (⟨5, 6, 9⟩ : VMFuncRef)) 4).vmctx :: 10 :: [1, 2, 3])) ∧
    (∀ n : Nat, is_wasm_parameter n = true ↔ 2 ≤ n) :=
  call_site_vmctx_abi false false ⟨0, 0⟩ 10 [1, 2, 3] (fun _ => ⟨5, 6, 9⟩) 4

/-- Setting bit 0 with `bor_imm` commutes with masking through `band_imm -2`:
the init bit is exactly the bit the mask clears. -/
theorem lor_one_and_mask (v : Nat) :
    (v ||| 1) &&& FUNCREF_MASK64 = v &&& FUNCREF_MASK64 := by
  apply Nat.eq_of_testBit_eq
  intro i
  simp only [Nat.testBit_and, Nat.testBit_or]
  cases i with
  | zero =>
      have hm : Nat.testBit FUNCREF_MASK64 0 = false := by decide
      simp [hm]
  | succ n =>
      have h1 : Nat.testBit 1 (n + 1) = false := by
        simp [Nat.testBit_add_one]
      simp [h1]

/-- A value with bit 0 forced on is odd. -/
theorem lor_one_mod_two (v : Nat) : (v ||| 1) % 2 = 1 := by
  have h : (v ||| 1) &&& 1 = 1 := by
    apply Nat.eq_of_testBit_eq
    intro i
    simp only [Nat.testBit_and, Nat.testBit_or]
    cases i with
    | zero => simp
    | succ n => simp [Nat.testBit_add_one]
  rwa [Nat.and_one_is_mod] at h

/-- A value with bit 0 forced on is non-zero. -/
theorem lor_one_ne_zero (v : Nat) : v ||| 1 ≠ 0 := by
  intro h
  have hm := lor_one_mod_two v
  rw [h] at hm
  cases hm

/-- C6: a funcref `table.set` of `v` stores `v` with the init bit (bit 0) set
unconditionally, the stored slot is never the null raw value, and a
subsequent `table.get` of the slot takes the fast path and returns the stored
pointer with the init bit masked off, `v &&& -2`, independently of the
lazy-init builtin. -/
theorem funcref_init_bit_round_trip (v lazy : Nat) (hv : v < 2 ^ 64) :
    table_set_funcref_stored v &&& FUNCREF_INIT_BIT = FUNCREF_INIT_BIT ∧
    table_set_funcref_stored v ≠ 0 ∧
    get_or_init_func_ref_table_elem (table_set_funcref_stored v) lazy =
      v &&& FUNCREF_MASK64 := by
  have hlt : v ||| 1 < 2 ^ 64 := Nat.or_lt_two_pow hv (by decide)
  have hstored : table_set_funcref_stored v = v ||| 1 := by
    simp only [table_set_funcref_stored, FUNCREF_INIT_BIT]
    exact Nat.mod_eq_of_lt hlt
  refine ⟨?_, ?_, ?_⟩
  · rw [hstored]
    simp only [FUNCREF_INIT_BIT, Nat.and_one_is_mod]
    exact lor_one_mod_two v
  · rw [hstored]
    exact lor_one_ne_zero v
  · rw [hstored]
    simp only [get_or_init_func_ref_table_elem, ne_eq, lor_one_ne_zero v,
      not_false_eq_true, if_true]
    exact lor_one_and_mask v

/-- C6 witness: round trip of the pointer 6 through a funcref slot (stored as
7, read back as 6), with lazy-init result 3 never consulted. -/
theorem funcref_init_bit_round_trip_witness :
    table_set_funcref_stored 6 &&& FUNCREF_INIT_BIT = FUNCREF_INIT_BIT ∧
    table_set_funcref_stored 6 ≠ 0 ∧
    get_or_init_func_ref_table_elem (table_set_funcref_stored 6) 3 =
      6 &&& FUNCREF_MASK64 :=
  funcref_init_bit_round_trip 6 3 (by decide)

/-- C3: in the externref `table.set` write barrier, the non-null new value's
refcount increment is the first event, strictly before the old slot value is
loaded and replaced; the old value's decrement and the conditional
`drop_externref` call come strictly after the store of the new value; and
`drop_externref` is called on the old value exactly when the old value is
non-null and the previous count returned by the atomic decrement is 1.  The
slot afterwards holds the new value. -/
theorem table_set_externref_write_barrier (value : Nat) (st : ExtState) :
    (translate_table_set_externref value st).2 =
      (if value = 0 then [] else [ExtEvent.incRef value]) ++
        [ExtEvent.loadOld st.slot, ExtEvent.storeNew value] ++
        (if st.slot = 0 then []
         else
           ExtEvent.decRef st.slot (prevCountAtDec value st) ::
             (if prevCountAtDec value st = 1 then
                [ExtEvent.dropExternref st.slot]
              else [])) ∧
    (ExtEvent.dropExternref st.slot ∈
        (translate_table_set_externref value st).2 ↔
      st.slot ≠ 0 ∧ prevCountAtDec value st = 1) ∧
    (translate_table_set_externref value st).1.slot = value := by
  have htrace :
      (translate_table_set_externref value st).2 =
        (if value = 0 then [] else [ExtEvent.incRef value]) ++
          [ExtEvent.loadOld st.slot, ExtEvent.storeNew value] ++
          (if st.slot = 0 then []
           else
             ExtEvent.decRef st.slot (prevCountAtDec value st) ::
               (if prevCountAtDec value st = 1 then
                  [ExtEvent.dropExternref st.slot]
                else [])) := by
    by_cases hv : value = 0 <;> by_cases hs : st.slot = 0 <;>
      by_cases hsv : st.slot = value <;>
        simp_all [translate_table_set_externref, prevCountAtDec,
          mutate_externref_ref_count, bumpRefCount]
  refine ⟨htrace, ?_, ?_⟩
  · rw [htrace]
    by_cases hv : value = 0 <;> by_cases hs : st.slot = 0 <;>
      by_cases hp : prevCountAtDec value st = 1 <;> simp_all
  · by_cases hv : value = 0 <;> by_cases hs : st.slot = 0 <;>
      simp_all [translate_table_set_externref]

/-- C3 has no hypotheses, but we record the barrier on a concrete state:
writing reference 5 over old slot value 9 whose count is 1 increments 5,
stores it, decrements 9 from previous count 1 and drops 9. -/
theorem table_set_externref_write_barrier_witness :
    (translate_table_set_externref 5
        { slot := 9, refcount := fun _ => 1 }).2 =
      [ExtEvent.incRef 5, ExtEvent.loadOld 9, ExtEvent.storeNew 5,
        ExtEvent.decRef 9 1, ExtEvent.dropExternref 9] := by
  have h := (table_set_externref_write_barrier 5
    { slot := 9, refcount := fun _ => 1 }).1
  rw [h]
  simp [prevCountAtDec]

/-- Folding the accumulator always leaves it at zero. -/
theorem fuel_increment_var_fst (c : Int) : (fuel_increment_var c).1 = 0 := by
  unfold fuel_increment_var
  split_ifs <;> rfl

/-- C4 counterexample: translating a reachable `call_ref` (and a
`return_call_ref`) accumulates its cost but emits no fold and no spill of the
fuel variable to `runtime_limits.fuel`, and no reload is emitted after a
`call_ref`, contradicting the claim that every call folds, spills and (when
not a tail call) reloads. -/
theorem fuel_call_ref_no_spill_cex :
    (fuel_before_op Op.callRefOp true 0).2 = [] ∧
    FuelIR.storeFuel ∉ (fuel_before_op Op.callRefOp true 0).2 ∧
    (fuel_before_op Op.callRefOp true 0).1 = 1 ∧
    (fuel_before_op Op.returnCallRefOp true 0).2 = [] ∧
    fuel_after_op Op.callRefOp = [] := by
  decide

/-- C4 (amended): with fuel enabled and reachable code, a function return,
`unreachable`, or a `call`, `call_indirect`, `return_call` or
`return_call_indirect` folds the static accumulator into the fuel variable
and spills it to `runtime_limits.fuel` before the operator, and after a
(non-tail) `call` or `call_indirect` the fuel variable is reloaded from
`runtime_limits`; `call_ref` and `return_call_ref` receive no such fold,
spill or reload. -/
theorem fuel_spill_ops_corrected (op : Op) (fc : Int) :
    ((op = Op.unreachable ∨ op = Op.retOp ∨ op = Op.call ∨
        op = Op.callIndirect ∨ op = Op.returnCall ∨
        op = Op.returnCallIndirect) →
      fuel_before_op op true fc =
        (0, (fuel_increment_var (fc + fuel_cost op)).2 ++
          [FuelIR.storeFuel])) ∧
    ((op = Op.call ∨ op = Op.callIndirect) →
      fuel_after_op op = [FuelIR.loadFuel]) ∧
    ((op = Op.callRefOp ∨ op = Op.returnCallRefOp) →
      fuel_before_op op true fc = (fc + 1, []) ∧ fuel_after_op op = []) := by
  cases op <;>
    simp [fuel_before_op, fuel_after_op, fuel_cost, fuel_increment_var_fst]

/-- C4 witness: the amended theorem applied to a reachable `call` with 3
units of buffered fuel. -/
theorem fuel_spill_ops_corrected_witness :
    fuel_before_op Op.call true 3 =
      (0, (fuel_increment_var (3 + fuel_cost Op.call)).2 ++
        [FuelIR.storeFuel]) :=
  (fuel_spill_ops_corrected Op.call 3).1
    (Or.inr (Or.inr (Or.inl rfl)))

/-- Iterating the fuel hook over an unreachable region never changes the
accumulator and never emits IR. -/
theorem fuel_before_ops_unreachable_eq (ops : List Op) (fc : Int) :
    fuel_before_ops_unreachable ops fc = (fc, []) := by
  induction ops generalizing fc with
  | nil => rfl
  | cons op rest ih =>
      simp [fuel_before_ops_unreachable, fuel_before_op, ih]

/-- C10: when the decoder reports the code unreachable, `fuel_before_op`
leaves the static fuel accumulator untouched and emits no IR, so over any
unreachable region the accumulator starting at zero stays zero with no IR
emitted, and the post-operator fuel reload of `after_translate_operator` is
skipped. -/
theorem fuel_unreachable_noop (op : Op) (ops : List Op) (fc : Int)
    (consume_fuel : Bool) :
    fuel_before_op op false fc = (fc, []) ∧
    fuel_before_ops_unreachable ops fc = (fc, []) ∧
    fuel_before_ops_unreachable ops 0 = (0, []) ∧
    after_translate_operator consume_fuel false op = [] := by
    exact ⟨by simp [fuel_before_op], fuel_before_ops_unreachable_eq ops fc,
      fuel_before_ops_unreachable_eq ops 0,
      by simp [after_translate_operator]⟩

/-- C7: the check emitted by `fuel_check` first folds the accumulator into
the 64-bit fuel variable, branches to the out-of-fuel path exactly when the
resulting value is signed greater-than-or-equal to zero, and on that path
executes, in order, the spill of the fuel variable to `runtime_limits`, the
`out_of_gas` builtin call, the reload of the fuel variable and the jump back
to the fall-through block; with fuel still negative nothing is executed on
the slow path. -/
theorem fuel_check_out_of_gas (fuelVar : Nat) (c : Int)
    (hlo : -(2 ^ 63) ≤ toSigned64 fuelVar + c)
    (hhi : toSigned64 fuelVar + c < 2 ^ 63) :
    toSigned64 (fuel_check_run fuelVar c).1 = toSigned64 fuelVar + c ∧
    (0 ≤ toSigned64 fuelVar + c →
      (fuel_check_run fuelVar c).2 =
        [FuelIR.storeFuel, FuelIR.callOutOfGas, FuelIR.loadFuel,
          FuelIR.jumpContinuation]) ∧
    (toSigned64 fuelVar + c < 0 → (fuel_check_run fuelVar c).2 = []) ∧
    (FuelIR.callOutOfGas ∈ (fuel_check_run fuelVar c).2 ↔
      0 ≤ toSigned64 fuelVar + c) := by
  have key : toSigned64 (wrap64 ((fuelVar : Int) + c)) =
      toSigned64 fuelVar + c := by
    have hm0 : 0 ≤ ((fuelVar : Int) + c) % 2 ^ 64 :=
      Int.emod_nonneg _ (by decide)
    have hcast : ((wrap64 ((fuelVar : Int) + c) : Nat) : Int) =
        ((fuelVar : Int) + c) % 2 ^ 64 := by
      simp only [wrap64]
      exact Int.toNat_of_nonneg hm0
    simp only [toSigned64] at hlo hhi ⊢
    split_ifs at hlo hhi ⊢ <;> omega
  refine ⟨?_, ?_, ?_, ?_⟩
  · simp only [fuel_check_run]
    split_ifs <;> exact key
  · intro h
    simp only [fuel_check_run, key]
    rw [if_pos h]
  · intro h
    simp only [fuel_check_run, key]
    rw [if_neg (by omega)]
  · simp only [fuel_check_run, key]
    split_ifs with h
    · simpa using h
    · simpa using h

/-- C7 witness: fuel pattern `2^64 - 1` (signed −1) with one unit of
accumulated cost folds to signed 0 and takes the out-of-gas path. -/
theorem fuel_check_out_of_gas_witness :
    toSigned64 (fuel_check_run (2 ^ 64 - 1) 1).1 =
      toSigned64 (2 ^ 64 - 1) + 1 ∧
    (0 ≤ toSigned64 (2 ^ 64 - 1) + 1 →
      (fuel_check_run (2 ^ 64 - 1) 1).2 =
        [FuelIR.storeFuel, FuelIR.callOutOfGas, FuelIR.loadFuel,
          FuelIR.jumpContinuation]) ∧
    (toSigned64 (2 ^ 64 - 1) + 1 < 0 →
      (fuel_check_run (2 ^ 64 - 1) 1).2 = []) ∧
    (FuelIR.callOutOfGas ∈ (fuel_check_run (2 ^ 64 - 1) 1).2 ↔
      0 ≤ toSigned64 (2 ^ 64 - 1) + 1) :=
  fuel_check_out_of_gas (2 ^ 64 - 1) 1 (by decide) (by decide)

/-- C8: the emitted epoch check calls `new_epoch` exactly once when the
current epoch reaches both the cached deadline and the freshly reloaded
authoritative deadline, and never otherwise; the slow path reloads the
authoritative deadline before any `new_epoch` call and caches the builtin's
returned value as the new deadline; both slow-path blocks are marked cold;
and a loop header emits an epoch check whenever epoch interruption is
enabled. -/
theorem epoch_check_double_check (cur cached fresh ret : Nat) :
    ((epoch_check cur cached fresh ret).2.count (EpochIR.callNewEpoch ret) =
      if cached ≤ cur ∧ fresh ≤ cur then 1 else 0) ∧
    (cached ≤ cur → fresh ≤ cur →
      epoch_check cur cached fresh ret =
        (ret, [EpochIR.setColdNewEpochBlock, EpochIR.setColdDoublecheckBlock,
          EpochIR.loadEpochCounter, EpochIR.reloadDeadline,
          EpochIR.callNewEpoch ret, EpochIR.jumpContinuation])) ∧
    (cached ≤ cur → ¬ fresh ≤ cur →
      epoch_check cur cached fresh ret =
        (fresh, [EpochIR.setColdNewEpochBlock, EpochIR.setColdDoublecheckBlock,
          EpochIR.loadEpochCounter, EpochIR.reloadDeadline])) ∧
    (¬ cached ≤ cur →
      epoch_check cur cached fresh ret =
        (cached, [EpochIR.setColdNewEpochBlock,
          EpochIR.setColdDoublecheckBlock, EpochIR.loadEpochCounter])) ∧
    EpochIR.setColdNewEpochBlock ∈ (epoch_check cur cached fresh ret).2 ∧
    EpochIR.setColdDoublecheckBlock ∈ (epoch_check cur cached fresh ret).2 ∧
    (∀ consume_fuel : Bool,
      CheckKind.epochCheck ∈ translate_loop_header consume_fuel true) := by
  by_cases h1 : cached ≤ cur <;> by_cases h2 : fresh ≤ cur <;>
    simp [epoch_check, translate_loop_header, h1, h2, List.count_cons]

/-- C8 witness: current epoch 5 exceeds both the cached deadline 3 and the
reloaded deadline 4, so the check reloads, calls `new_epoch` once and caches
its returned deadline 9. -/
theorem epoch_check_double_check_witness :
    epoch_check 5 3 4 9 =
      (9, [EpochIR.setColdNewEpochBlock, EpochIR.setColdDoublecheckBlock,
        EpochIR.loadEpochCounter, EpochIR.reloadDeadline,
        EpochIR.callNewEpoch 9, EpochIR.jumpContinuation]) :=
  (epoch_check_double_check 5 3 4 9).2.1 (by decide) (by decide)

/-- C9 counterexample: on a 32-bit host, `translate_memory_size` of a
defined shared memory emits a 32-bit atomic load of `current_length`, not
the 64-bit atomic load the claim states. -/
theorem memory_size_shared_cex :
    (translate_memory_size 32 true true false).lengthLoad =
      SizeLoad.atomicLoad 32 ∧
    (translate_memory_size 32 true true false).lengthLoad ≠
      SizeLoad.atomicLoad 64 := by
  decide

/-- C9 (amended): `translate_memory_size` on a shared memory (defined
or imported) emits a pointer-width atomic load — 64-bit exactly on 64-bit
hosts — of `current_length` reached through the `VMMemoryDefinition`
indirection pointer stored in vmctx, while a non-shared memory gets a plain
load (direct for a defined memory, through the import indirection
otherwise); in all cases the byte length is divided by the 65536-byte page
size and cast to the memory's index type. -/
theorem memory_size_shared_corrected (ptrBits : Nat)
    (defined shared memory64 : Bool) :
    (shared = true →
      (translate_memory_size ptrBits defined shared memory64).lengthLoad =
        SizeLoad.atomicLoad ptrBits ∧
      (translate_memory_size ptrBits defined shared
          memory64).throughVMMemoryPtr = true) ∧
    (shared = false →
      (translate_memory_size ptrBits defined shared memory64).lengthLoad =
        SizeLoad.plainLoad ptrBits) ∧
    (defined = true → shared = false →
      (translate_memory_size ptrBits defined shared
          memory64).throughVMMemoryPtr = false) ∧
    (defined = false →
      (translate_memory_size ptrBits defined shared
          memory64).throughVMMemoryPtr = true) ∧
    (translate_memory_size ptrBits defined shared memory64).pageDivisor =
      PAGE_SIZE_WASM ∧
    (translate_memory_size ptrBits defined shared memory64).cast =
      cast_pointer_to_memory_index ptrBits memory64 := by
  cases defined <;> cases shared <;> simp [translate_memory_size]

/-- C9 witness: the amended theorem applied to a defined shared classic
memory on a 64-bit host, where the atomic load is indeed 64-bit. -/
theorem memory_size_shared_corrected_witness :
    (translate_memory_size 64 true true false).lengthLoad =
      SizeLoad.atomicLoad 64 ∧
    (translate_memory_size 64 true true false).throughVMMemoryPtr = true :=
  (memory_size_shared_corrected 64 true true false).1 rfl

end FuncEnviron
